import Mathlib

/-!
Verification of the parallel MCTS engine of the lz Go program against its
natural-language specification.  The engine source consists of the UCT search
driver (`UCTSearch.cpp`, given as `src/unnamed/part_000`) and the GTP
front-end (`src/src/GTP.cpp`).  Pure fragments of both files are embedded
below as executable Lean functions; C++ machine integers are modelled by
`Nat`/`Int` and C++ floats by `ℚ`.  Methods of `UCTNode`, `FastBoard` and
`GameState` whose sources are not part of the repository snapshot are
modelled from the specification and are marked as such in their doc
comments.
-/

set_option linter.unusedVariables false

namespace LZ

/-- Modelled from the spec: the `FastBoard` vertex encoding (header absent
from src).  `PASS` and `RESIGN` are the two distinct non-board sentinel
moves used by `get_best_move` and `think`. -/
def PASS : Int := -1

/-- Modelled from the spec: the `RESIGN` sentinel move (header absent from
src). -/
def RESIGN : Int := -2

/-- Modelled from the spec: the colour of the black side (header absent
from src). -/
def BLACK : Nat := 0

/-- Modelled from the spec: the colour of the white side (header absent
from src). -/
def WHITE : Nat := 1

/-- `UCTSearch::UNLIMITED_PLAYOUTS`.  The header is absent from src; the
value INT_MAX / 2 is fixed by the comment at `set_visit_limit`
(`src/unnamed/part_000` lines 1063–1069): "Limit to type max / 2 to prevent
overflow when multithreading." -/
def UNLIMITED_PLAYOUTS : Int := 1073741823

/-! ## Root reader/writer lock (claim C2)

`UCTSearch::acquire_reader` / `acquire_writer`, `src/unnamed/part_000`
lines 173–196.  The lock is one atomic counter: reader units are 1, the
writer unit is 128. -/

/-- One iteration of the `acquire_reader` loop (lines 173–182).  `c0` is the
counter value read by the pre-check `m_root_lock >= 128`; `c1` is the value
returned by `fetch_add(1)` (other threads may have changed the counter in
between).  Result: whether the reader acquired, and the net counter value
contributed by this iteration (`c1 + 1` on success; on the undo branch the
`fetch_add` is immediately compensated by `--m_root_lock`, so the counter
returns to `c1`). -/
def acquire_reader_step (c0 c1 : Nat) : Bool × Nat :=
  if 128 ≤ c0 then (false, c1)
  else if 128 ≤ c1 then (false, c1 + 1 - 1)
  else (true, c1 + 1)

/-- The root-lock counter encoding: 128 units if the writer has performed its
`fetch_add(128)` (`acquire_writer`, lines 188–192), plus one unit per
reader currently counted. -/
def root_lock_counter (writer_added : Bool) (readers : Nat) : Nat :=
  (if writer_added then 128 else 0) + readers

/-- `acquire_writer` (lines 188–192) returns, holding the lock, exactly when
the counter it observes equals 128 after its own `fetch_add(128)`. -/
def writer_enters (writer_added : Bool) (readers : Nat) : Bool :=
  writer_added && (root_lock_counter writer_added readers == 128)

/-- C2 (counterexample): with 127 readers holding the lock (counter 127), a
further reader acquire succeeds — the value fetched by `fetch_add(1)` is
127 < 128, so the undo branch is not taken although the resulting new value
128 exceeds 127 — and it leaves the counter at the writer-exclusive value
128.  This refutes both the claimed undo condition ("whenever the resulting
new value exceeds 127") and the claimed consequence that a successful
reader acquisition never leaves the counter at or above 128. -/
theorem C2_reader_overshoot_counterexample :
    (acquire_reader_step 127 127).1 = true ∧
      128 ≤ (acquire_reader_step 127 127).2 := by
  constructor <;> decide

/-- C2 (amended): a reader acquire performs `fetch_add(1)` and undoes the
increment exactly when the fetched (pre-increment) value is at least 128,
i.e. when the resulting new value exceeds 128; consequently a successful
reader acquisition leaves the counter at most 128 (it reaches exactly 128
only when 127 readers already hold the lock), and a writer that adds 128
and spins until the counter equals exactly 128 never holds the lock
simultaneously with any reader. -/
theorem C2_reader_writer_lock_amended (c0 c1 : Nat) :
    ((acquire_reader_step c0 c1).1 = true →
        c1 ≤ 127 ∧ (acquire_reader_step c0 c1).2 = c1 + 1 ∧
          (acquire_reader_step c0 c1).2 ≤ 128) ∧
    (128 ≤ c1 → (acquire_reader_step c0 c1).1 = false ∧
        (acquire_reader_step c0 c1).2 = c1) ∧
    (∀ (w : Bool) (r : Nat), writer_enters w r = true → r = 0) := by
  refine ⟨?_, ?_, ?_⟩
  · intro h
    unfold acquire_reader_step at *
    by_cases h0 : 128 ≤ c0
    · simp [h0] at h
    · by_cases h1 : 128 ≤ c1
      · simp [h0, h1] at h
      · simp [h0, h1] at h ⊢
        omega
  · intro h1
    unfold acquire_reader_step
    by_cases h0 : 128 ≤ c0 <;> simp [h0, h1]
  · intro w r h
    unfold writer_enters root_lock_counter at h
    cases w with
    | false => simp at h
    | true => simp at h; omega

/-- C2 amended, witness: at counter value 5 a reader acquire succeeds and
leaves the counter at 6 ≤ 128. -/
theorem C2_reader_writer_lock_amended_witness :
    (acquire_reader_step 5 5).1 = true ∧ (acquire_reader_step 5 5).2 = 6 := by
  have h := (C2_reader_writer_lock_amended 5 5).1 (by decide)
  exact ⟨by decide, h.2.1⟩

/-! ## Terminal-position evaluation (claim C8)

`eval_from_score` (`src/unnamed/part_000` lines 356–360) and the terminal
branch of `UCTSearch::play_simulation` (lines 373–379). -/

/-- The node expansion states of the data model (spec §3). -/
inductive ExpandState
  | IDLE
  | WRITING
  | READY
  | INVALID
deriving DecidableEq, Repr

/-- The mutable per-node data visible to the embedded `UCTSearch` code: visit
count and value sum (floats in the source, here `ℚ`), the virtual-loss
counter, the expansion state and the materialised children (their moves),
`none` until `create_children` runs. -/
structure UCTNodeData where
  visits : ℚ
  value_sum : ℚ
  m_virtual_loss : Int
  expand_state : ExpandState
  children : Option (List Int)
deriving DecidableEq, Repr

/-- `eval_from_score` (lines 356–360): the deterministic black-perspective
eval of a finished game. -/
def eval_from_score (board_score : ℚ) : ℚ :=
  if 0 < board_score then 1
  else if board_score < 0 then 0
  else 1/2

/-- `UCTNode::update(eval, vl, factor, sel_factor)`, modelled from the spec
(§4.4, UCTNode source absent from src): adds `factor` to the visit count,
accumulates `eval * sel_factor` into the value sum, and removes `vl`
virtual-loss units.  It touches nothing else on the node. -/
def UCTNodeData.update (n : UCTNodeData) (eval : ℚ) (vl : Nat)
    (factor sel_factor : ℚ) : UCTNodeData :=
  { n with
    visits := n.visits + factor
    value_sum := n.value_sum + eval * sel_factor
    m_virtual_loss := n.m_virtual_loss - vl }

/-- The terminal branch of `play_simulation` (lines 373–379): when the
simulation state shows two consecutive passes, the eval backed up is
`eval_from_score(currstate->final_score())` and the node receives
`update(eval, 1, 1.0f, factor)`; the path is then backed up with `vl = 1`.
Result: the backed-up eval and the leaf node afterwards.  No network
result is consulted and no children are created. -/
def play_simulation_terminal (n : UCTNodeData) (final_score : ℚ)
    (factor : ℚ) : ℚ × UCTNodeData :=
  (eval_from_score final_score,
   n.update (eval_from_score final_score) 1 1 factor)

/-- A freshly constructed, never-expanded node as allocated by
`UCTSearch::update_root` (line 214): no visits, no children, idle. -/
def freshNode : UCTNodeData :=
  { visits := 0
    value_sum := 0
    m_virtual_loss := 1
    expand_state := ExpandState.IDLE
    children := none }

/-- C8 (counterexample): a terminal backup at a fresh unexpanded node with
final score +3 backs up the eval 1, but leaves the node unmarked: its
expansion state is still `IDLE` — identical to any unexpanded node — and it
has no children array.  The code records no terminal marker; terminality is
re-detected from the pass count of the game state on each visit.  This
refutes the claim's "the node is marked terminal". -/
theorem C8_no_terminal_mark_counterexample :
    (play_simulation_terminal freshNode 3 1).1 = 1 ∧
    (play_simulation_terminal freshNode 3 1).2.expand_state =
      freshNode.expand_state ∧
    (play_simulation_terminal freshNode 3 1).2.expand_state =
      ExpandState.IDLE ∧
    (play_simulation_terminal freshNode 3 1).2.children = none := by
  refine ⟨by decide, by decide, by decide, by decide⟩

/-- C8 (amended): when a simulation reaches a terminal state (two
consecutive passes), the value backed up is determined by the final score —
1 if positive (Black wins), 0 if negative (White wins), 0.5 otherwise — not
by a network evaluation (the terminal step consumes no network result); no
children are created and the node's expansion state is unchanged (it is not
specially marked: terminality is re-detected from the game state on each
visit). -/
theorem C8_terminal_eval_amended (n : UCTNodeData) (score factor : ℚ) :
    (play_simulation_terminal n score factor).1 =
      (if 0 < score then 1 else if score < 0 then 0 else 1/2) ∧
    (play_simulation_terminal n score factor).2.children = n.children ∧
    (play_simulation_terminal n score factor).2.expand_state =
      n.expand_state ∧
    (play_simulation_terminal n score factor).2.visits = n.visits + 1 := by
  refine ⟨rfl, rfl, rfl, by simp [play_simulation_terminal, UCTNodeData.update]⟩

/-! ## `lz-setoption name playouts` (claim C10)

`GTP::execute_setoption` (`src/src/GTP.cpp` lines 1244–1265) and
`UCTSearch::set_playout_limit` (`src/unnamed/part_000` lines 1056–1061). -/

/-- The configuration and search state touched by the "playouts" option:
the two globals `cfg_max_playouts` / `cfg_max_visits`, the pondering flag,
and `m_maxplayouts`, the playout limit installed in the running search. -/
structure PlayoutOptionState where
  cfg_max_playouts : Int
  cfg_max_visits : Int
  cfg_allow_pondering : Bool
  m_maxplayouts : Int
deriving DecidableEq, Repr

/-- `UCTSearch::set_playout_limit` (lines 1056–1061):
`m_maxplayouts = std::min(playouts, UNLIMITED_PLAYOUTS)`. -/
def set_playout_limit (s : PlayoutOptionState) (playouts : Int) :
    PlayoutOptionState :=
  { s with m_maxplayouts := min playouts UNLIMITED_PLAYOUTS }

/-- The `name == "playouts"` branch of `GTP::execute_setoption` (GTP.cpp
lines 1244–1265): store the parsed value in `cfg_max_playouts`; a zero value
means no limit; a nonzero value with pondering enabled is refused
(`gtp_fail_printf`, modelled by the `false` flag) after the global was
already overwritten; otherwise install
`search.set_playout_limit(cfg_max_visits)` — the visit-limit global, not
the parsed playout value. -/
def execute_setoption_playouts (s : PlayoutOptionState) (playouts : Int) :
    Bool × PlayoutOptionState :=
  let s1 := { s with cfg_max_playouts := playouts }
  if s1.cfg_max_playouts = 0 then
    let s2 := { s1 with cfg_max_playouts := UNLIMITED_PLAYOUTS }
    (true, set_playout_limit s2 s2.cfg_max_visits)
  else if s1.cfg_allow_pondering then
    (false, s1)
  else
    (true, set_playout_limit s1 s1.cfg_max_visits)

/-- C10: handling `lz-setoption name playouts value N` with pondering
disabled and `N` nonzero stores `N` in `cfg_max_playouts` but installs
`set_playout_limit(cfg_max_visits)` in the search, so the installed playout
limit is the currently configured visit limit (clamped at
`UNLIMITED_PLAYOUTS`), not `N`: the installed limit is the same for every
nonzero parsed value, and whenever the configured visit limit is in range
it equals that visit limit exactly. -/
theorem C10_playouts_option_sets_visit_limit (s : PlayoutOptionState)
    (N : Int) (hN : N ≠ 0) (hp : s.cfg_allow_pondering = false) :
    (execute_setoption_playouts s N).2.cfg_max_playouts = N ∧
    (execute_setoption_playouts s N).2.m_maxplayouts =
      min s.cfg_max_visits UNLIMITED_PLAYOUTS ∧
    (s.cfg_max_visits ≤ UNLIMITED_PLAYOUTS →
      (execute_setoption_playouts s N).2.m_maxplayouts = s.cfg_max_visits) ∧
    (∀ N2 : Int, N2 ≠ 0 →
      (execute_setoption_playouts s N2).2.m_maxplayouts =
        (execute_setoption_playouts s N).2.m_maxplayouts) := by
  have hstep : ∀ M : Int, M ≠ 0 →
      execute_setoption_playouts s M =
        (true, set_playout_limit { s with cfg_max_playouts := M }
          s.cfg_max_visits) := by
    intro M hM
    unfold execute_setoption_playouts
    simp [hM, hp]
  rw [hstep N hN]
  refine ⟨rfl, rfl, fun h => by simp [set_playout_limit, min_eq_left h], ?_⟩
  intro N2 hN2
  rw [hstep N2 hN2]
  rfl

/-- C10, witness: with visit limit 5000, pondering off, `playouts 123`
stores 123 in the global but installs 5000 as the search's playout
limit. -/
theorem C10_playouts_option_sets_visit_limit_witness :
    (execute_setoption_playouts
        ⟨77, 5000, false, 77⟩ 123).2.cfg_max_playouts = 123 ∧
    (execute_setoption_playouts
        ⟨77, 5000, false, 77⟩ 123).2.m_maxplayouts = 5000 := by
  have h := C10_playouts_option_sets_visit_limit ⟨77, 5000, false, 77⟩ 123
    (by decide) rfl
  exact ⟨h.1, h.2.2.1 (by decide)⟩

/-! ## Virtual-loss accounting (claim C1)

`UCTSearch::backup` (both overloads, `src/unnamed/part_000` lines 293–341),
`UCTSearch::failed_simulation` (lines 343–354) and the descent loop of
`play_simulation` (lines 362–446).  The per-node virtual-loss counters are
collected in a ledger indexed by node id; each primitive below changes one
node's counter by a constant, so any interleaving of concurrent simulations
applies the same pointwise sums. -/

/-- The ledger of `m_virtual_loss` counters, one per node id. -/
def VLLedger := Nat → Int

/-- Add `d` to the virtual-loss counter of node `n`. -/
def VLLedger.bump (s : VLLedger) (n : Nat) (d : Int) : VLLedger :=
  fun m => if m = n then s m + d else s m

/-- Modelled from the spec (§2 dataflow: a worker records its path and a
virtual loss on every node of it; UCTNode source absent from src): the
descent of one simulation adds one virtual-loss unit at every node it
records on its path. -/
def descend_path (p : List Nat) (s : VLLedger) : VLLedger :=
  p.foldl (fun t n => t.bump n 1) s

/-- `k` further simulations descending the same path (the readers that will
receive FAIL at its last node while it is being expanded, lines 396–406:
they return leaving their virtual loss in place). -/
def descend_path_iter : Nat → List Nat → VLLedger → VLLedger
  | 0, _, s => s
  | k + 1, p, s => descend_path p (descend_path_iter k p s)

/-- `UCTSearch::failed_simulation` (lines 343–354), `incr = false` branch:
`virtual_loss_undo(vl)` at every node of the recorded path
(`virtual_loss_undo` modelled from the spec as subtracting `vl`). -/
def failed_simulation (p : List Nat) (vl : Nat) (s : VLLedger) : VLLedger :=
  p.foldl (fun t n => t.bump n (-(vl : Int))) s

/-- The virtual-loss removal of a completed expansion backup
(`UCTSearch::backup`, lines 293–341): `node->update(eval, vl, ...)` at the
leaf (line 306) together with the `uint16_t` overload (lines 332–341)
applying `update(..., vl, ...)` at every remaining path node — `vl` units
removed at every node of the recorded path, with `vl` the count exchanged
from the expanded node's `accumulated_vl` (line 301). -/
def backup_remove (p : List Nat) (vl : Nat) (s : VLLedger) : VLLedger :=
  p.foldl (fun t n => t.bump n (-(vl : Int))) s

/-- Modelled from the spec (§4.1, §4.3; UCTNode source absent from src):
the count exchanged from `accumulated_vl` when a node with `k` FAIL readers
is expanded.  Each FAIL recorded one pending unit (§4.1); the expander's own
pending descent unit is recorded the same way on WRITE acquisition, so that
the single exchanged count covers the expander and all failed readers —
this is forced by the source, whose backup removes the same exchanged `vl`
at every path node (lines 306, 332–341) and whose terminal backup removes
exactly one unit per node (lines 376–377). -/
def exchanged_vl (k : Nat) : Nat := 1 + k

/-- One completed unit of search work, grouped for accounting:
a terminal backup; a superko abort; an expansion together with the `k` FAIL
readers it unwinds (they failed on the node the expander expanded, hence
descended the same path); or a stale expansion (the `!first_visit` branch of
`backup`, line 320, which unwinds via `failed_simulation`). -/
inductive SimGroup
  | terminal (p : List Nat)
  | superko (p : List Nat)
  | expansion (p : List Nat) (k : Nat)
  | staleExpansion (p : List Nat) (k : Nat)

/-- Net ledger effect of one completed group.

terminal: one descent, then `update(eval, 1, ...)` at the leaf and
`backup(bd, 1)` along the rest of the path (lines 373–379);

superko: one descent, then `failed_simulation(bd, 1)` (lines 420–424) —
the invalidated child itself was never recorded on the path;

expansion: `1 + k` descents (the expander and its `k` FAIL readers), then
one backup removing the exchanged count at every path node (lines 301–341);

staleExpansion: as expansion, but the removal runs through
`failed_simulation(bd, vl)` (line 320). -/
def SimGroup.apply : SimGroup → VLLedger → VLLedger
  | .terminal p, s => backup_remove p 1 (descend_path p s)
  | .superko p, s => failed_simulation p 1 (descend_path p s)
  | .expansion p k, s =>
      backup_remove p (exchanged_vl k) (descend_path_iter (1 + k) p s)
  | .staleExpansion p k, s =>
      failed_simulation p (exchanged_vl k) (descend_path_iter (1 + k) p s)

theorem VLLedger.foldl_bump_apply (d : Int) (p : List Nat) (s : VLLedger)
    (n : Nat) :
    (p.foldl (fun t m => t.bump m d) s) n = s n + d * p.count n := by
  induction p generalizing s with
  | nil => simp
  | cons a p ih =>
      rw [List.foldl_cons, ih, List.count_cons]
      unfold VLLedger.bump
      by_cases h : n = a
      · simp [h]
        ring
      · have h2 : ¬(a == n) = true := by
          simp [BEq.beq]
          omega
        simp [h, h2]

theorem descend_path_apply (p : List Nat) (s : VLLedger) (n : Nat) :
    descend_path p s n = s n + p.count n := by
  have h := VLLedger.foldl_bump_apply 1 p s n
  simpa [descend_path] using h

theorem descend_path_iter_apply (k : Nat) (p : List Nat) (s : VLLedger)
    (n : Nat) :
    descend_path_iter k p s n = s n + k * p.count n := by
  induction k generalizing s with
  | zero => simp [descend_path_iter]
  | succ k ih =>
      rw [descend_path_iter, descend_path_apply, ih]
      push_cast
      ring

theorem failed_simulation_apply (p : List Nat) (vl : Nat) (s : VLLedger)
    (n : Nat) :
    failed_simulation p vl s n = s n - vl * p.count n := by
  have h := VLLedger.foldl_bump_apply (-(vl : Int)) p s n
  simpa [failed_simulation, sub_eq_add_neg] using h

theorem backup_remove_apply (p : List Nat) (vl : Nat) (s : VLLedger)
    (n : Nat) :
    backup_remove p vl s n = s n - vl * p.count n := by
  have h := VLLedger.foldl_bump_apply (-(vl : Int)) p s n
  simpa [backup_remove, sub_eq_add_neg] using h

theorem SimGroup.apply_id (g : SimGroup) (s : VLLedger) (n : Nat) :
    g.apply s n = s n := by
  cases g with
  | terminal p =>
      rw [SimGroup.apply, backup_remove_apply, descend_path_apply]
      ring
  | superko p =>
      rw [SimGroup.apply, failed_simulation_apply, descend_path_apply]
      ring
  | expansion p k =>
      rw [SimGroup.apply, backup_remove_apply, descend_path_iter_apply]
      unfold exchanged_vl
      push_cast
      ring
  | staleExpansion p k =>
      rw [SimGroup.apply, failed_simulation_apply, descend_path_iter_apply]
      unfold exchanged_vl
      push_cast
      ring

/-- C1: virtual-loss units added on descent are exactly removed on
completion.  (i) A successful expansion backup removes, at every node of
its recorded path, `1 + k` units — the expander's own unit plus one for
each of the `k` readers that received FAIL on the expanded node and
returned without backing up — this being the count `exchanged_vl k`
atomically exchanged from the expanded node's `accumulated_vl`; the
`1 + k` descents that produced those units are thereby unwound exactly.
(ii) A simulation aborted by superko removes exactly one unit from every
node on its path.  (iii) Hence any collection of completed work groups
leaves every counter where it started: starting from the all-zero ledger,
every node's `virtual_loss` is back to 0. -/
theorem C1_virtual_loss_roundtrip (p : List Nat) (k : Nat) (n : Nat)
    (s : VLLedger) (gs : List SimGroup) :
    backup_remove p (exchanged_vl k) s n = s n - (1 + k) * p.count n ∧
    (SimGroup.expansion p k).apply s n = s n ∧
    failed_simulation p 1 s n = s n - p.count n ∧
    (SimGroup.superko p).apply s n = s n ∧
    (gs.foldl (fun t g => g.apply t) (fun _ => 0)) n = 0 := by
  refine ⟨?_, SimGroup.apply_id _ s n, ?_, SimGroup.apply_id _ s n, ?_⟩
  · rw [backup_remove_apply]
    unfold exchanged_vl
    push_cast
    ring
  · rw [failed_simulation_apply]
    push_cast
    ring
  · have hz : ∀ t : VLLedger, t n = 0 →
        (gs.foldl (fun u g => g.apply u) t) n = 0 := by
      induction gs with
      | nil => intro t ht; simpa using ht
      | cons g gs ih =>
          intro t ht
          rw [List.foldl_cons]
          exact ih (g.apply t) (by rw [SimGroup.apply_id]; exact ht)
    exact hz _ rfl

/-! ## Background tree destruction (claim C6)

The delete task spawned by `UCTSearch::update_root`
(`src/unnamed/part_000` lines 217–239): it captures the detached nodes and
the pending-simulation counter of the search that used them (the counter is
replaced by a fresh one at line 269, after the task is scheduled), pops the
first detached root, and sleeps in a loop while
`*pending_counter > 0 || root->m_virtual_loss`; only after that loop exits
does it delete the detached nodes. -/

/-- One observation made by an iteration of the delete task's wait loop:
the pending-simulation count and the virtual-loss counters of the roots of
all detached subtrees, the first detached root (`to_delete.front()`)
first. -/
structure DeleteObs where
  pending : Int
  root_vls : List Int
deriving DecidableEq, Repr

/-- The exit condition of the wait loop (lines 223–228): the task keeps
sleeping while `pending > 0` or the first detached root's virtual loss is
nonzero. -/
def delete_wait_done (o : DeleteObs) : Bool :=
  !(decide (0 < o.pending)) && (o.root_vls.headD 0 == 0)

/-- The loop iteration at which the task stops waiting and deletes all
detached nodes: the first observation satisfying the exit condition. -/
def delete_time : List DeleteObs → Option Nat
  | [] => none
  | o :: rest =>
      if delete_wait_done o then some 0
      else (delete_time rest).map (· + 1)

theorem delete_time_spec (obs : List DeleteObs) (t : Nat)
    (ht : delete_time obs = some t) :
    ∃ o, obs.get? t = some o ∧ delete_wait_done o = true ∧
      ∀ i, i < t → ∀ oi, obs.get? i = some oi →
        delete_wait_done oi = false := by
  induction obs generalizing t with
  | nil => simp [delete_time] at ht
  | cons o rest ih =>
      by_cases h : delete_wait_done o
      · rw [delete_time, if_pos h] at ht
        cases ht
        exact ⟨o, rfl, h, fun i hi => by omega⟩
      · rw [delete_time, if_neg h] at ht
        match hrec : delete_time rest with
        | none => rw [hrec] at ht; simp at ht
        | some t2 =>
            rw [hrec] at ht
            simp at ht
            obtain ⟨o2, ho2, hd, hbefore⟩ := ih t2 hrec
            refine ⟨o2, ?_, hd, ?_⟩
            · rw [← ht]
              simpa using ho2
            · intro i hi oi hoi
              match i with
              | 0 =>
                  simp at hoi
                  rw [← hoi]
                  simpa using h
              | i + 1 =>
                  refine hbefore i (by omega) oi ?_
                  simpa using hoi

/-- C6: the delete task deallocates the detached nodes only after an
iteration at which both (a) the pending-simulation counter of the search
that used them has reached zero (is no longer positive) and (b) the first
detached root's virtual loss reads 0 — and at quiescence the latter holds
for every detached subtree's root: under the quiescence hypothesis that a
non-positive pending count means no simulation is in flight, so every
detached root's virtual loss is 0 (spec invariant 5, the balance of claim
C1), the deletion instant shows virtual_loss = 0 for every detached
subtree, and no earlier wait iteration permits deletion. -/
theorem C6_delete_waits_for_quiescence (obs : List DeleteObs) (t : Nat)
    (ht : delete_time obs = some t)
    (hq : ∀ o ∈ obs, o.pending ≤ 0 → ∀ v ∈ o.root_vls, v = 0) :
    ∃ o, obs.get? t = some o ∧ o.pending ≤ 0 ∧
      (∀ v ∈ o.root_vls, v = 0) ∧
      ∀ i, i < t → ∀ oi, obs.get? i = some oi →
        delete_wait_done oi = false := by
  obtain ⟨o, hget, hdone, hbefore⟩ := delete_time_spec obs t ht
  have hmem : o ∈ obs := List.get?_mem hget
  have hp : o.pending ≤ 0 := by
    unfold delete_wait_done at hdone
    simp at hdone
    omega
  exact ⟨o, hget, hp, hq o hmem hp, hbefore⟩

/-- C6, witness: with observations (pending 2, front vl 3) then
(pending 0, all vls 0), deletion happens at instant 1, where the pending
count is 0 and both detached roots' virtual losses are 0; instant 0 did not
permit deletion. -/
theorem C6_delete_waits_for_quiescence_witness :
    ∃ o, ([⟨2, [3, 1]⟩, ⟨0, [0, 0]⟩] : List DeleteObs).get? 1 = some o ∧
      o.pending ≤ 0 ∧ (∀ v ∈ o.root_vls, v = 0) ∧
      ∀ i, i < 1 → ∀ oi, ([⟨2, [3, 1]⟩, ⟨0, [0, 0]⟩] :
          List DeleteObs).get? i = some oi →
        delete_wait_done oi = false := by
  exact C6_delete_waits_for_quiescence [⟨2, [3, 1]⟩, ⟨0, [0, 0]⟩] 1
    (by decide) (by decide)

/-! ## Memory configuration (claim C9)

`GTP::set_max_memory` (`src/src/GTP.cpp` lines 1112–1159).  The constants
`DEFAULT_MAX_MEMORY`, `MIN_TREE_SPACE`, `NNCache::ENTRY_SIZE`,
`NNCache::MIN_CACHE_COUNT`, the network base memory (`get_base_memory`,
lines 1101–1110, which reads the network's estimated size) and the
`remove_overhead` helper live in headers and collaborators absent from
src; they are kept as abstract parameters of the model. -/

/-- The configuration state written by `set_max_memory`: the three config
globals (GTP.cpp lines 1148–1151) plus the cache size installed by
`s_network->nncache_resize` (line 1153). -/
structure MemConfig where
  cfg_max_memory : Nat
  cfg_max_cache_ratio_percent : Nat
  cfg_max_tree_size : Nat
  nncache_count : Nat
deriving DecidableEq, Repr

/-- The environment of `set_max_memory`: constants and helpers it consults
but whose definitions are outside src. -/
structure MemEnv where
  default_max_memory : Nat
  base_memory : Nat
  entry_size : Nat
  min_cache_count : Nat
  min_tree_space : Nat
  removeOverhead : Nat → Nat

/-- `GTP::set_max_memory` (lines 1112–1159).  Returns the
(success, message) reply and the configuration state afterwards; the
arithmetic is the source's `size_t` / `int` arithmetic (all quantities
nonnegative, subtraction guarded by the preceding comparison). -/
def set_max_memory (env : MemEnv) (cfg : MemConfig) (max_memory0 : Nat)
    (cache_size_ratio_percent : Nat) : (Bool × String) × MemConfig :=
  let max_memory :=
    if max_memory0 = 0 then env.default_max_memory else max_memory0
  if max_memory < env.base_memory then
    ((false, "Not enough memory for network."), cfg)
  else
    let max_memory_for_search := max_memory - env.base_memory
    let max_cache_size :=
      max_memory_for_search * cache_size_ratio_percent / 100
    let max_cache_count := env.removeOverhead max_cache_size / env.entry_size
    if max_cache_count < env.min_cache_count then
      ((false, "Not enough memory for cache."), cfg)
    else
      let max_tree_size := max_memory_for_search - max_cache_size
      if max_tree_size < env.min_tree_space then
        ((false, "Not enough memory for search tree."), cfg)
      else
        ((true, "Setting max tree size."),
         { cfg_max_memory := max_memory
           cfg_max_cache_ratio_percent := cache_size_ratio_percent
           cfg_max_tree_size := env.removeOverhead max_tree_size
           nncache_count := max_cache_count })

/-- C9: `set_max_memory` refuses any configuration whose projected
consumption does not fit the cap — the cap (after substituting the default
for 0) is below the network's base memory, the cache share yields fewer
than the minimum cache entries, or the remaining tree space is below the
minimum — returning failure with the corresponding descriptive message; on
every failing call no configuration value (`cfg_max_memory`,
`cfg_max_cache_ratio_percent`, `cfg_max_tree_size`) is modified and the
cache is not resized, while on success all of them are updated to the
computed values. -/
theorem C9_set_max_memory_all_or_nothing (env : MemEnv) (cfg : MemConfig)
    (m p : Nat) :
    ((set_max_memory env cfg m p).1.1 = false →
      (set_max_memory env cfg m p).2 = cfg) ∧
    (∀ mm mfs mcs mcc mts,
      mm = (if m = 0 then env.default_max_memory else m) →
      mfs = mm - env.base_memory →
      mcs = mfs * p / 100 →
      mcc = env.removeOverhead mcs / env.entry_size →
      mts = mfs - mcs →
      (mm < env.base_memory →
        (set_max_memory env cfg m p).1 =
          (false, "Not enough memory for network.")) ∧
      (¬ mm < env.base_memory → mcc < env.min_cache_count →
        (set_max_memory env cfg m p).1 =
          (false, "Not enough memory for cache.")) ∧
      (¬ mm < env.base_memory → ¬ mcc < env.min_cache_count →
        mts < env.min_tree_space →
        (set_max_memory env cfg m p).1 =
          (false, "Not enough memory for search tree.")) ∧
      (¬ mm < env.base_memory → ¬ mcc < env.min_cache_count →
        ¬ mts < env.min_tree_space →
        (set_max_memory env cfg m p).1.1 = true ∧
        (set_max_memory env cfg m p).2 =
          { cfg_max_memory := mm
            cfg_max_cache_ratio_percent := p
            cfg_max_tree_size := env.removeOverhead mts
            nncache_count := mcc })) := by
  constructor
  · intro hfail
    unfold set_max_memory at *
    by_cases h1 : (if m = 0 then env.default_max_memory else m) <
        env.base_memory
    · simp only [h1, if_true] at *
    · simp only [h1, if_false] at *
      by_cases h2 : env.removeOverhead
          (((if m = 0 then env.default_max_memory else m) -
            env.base_memory) * p / 100) / env.entry_size <
          env.min_cache_count
      all_goals simp only [h2, if_true, if_false] at *
      all_goals
        by_cases h3 : ((if m = 0 then env.default_max_memory else m) -
            env.base_memory) -
            ((if m = 0 then env.default_max_memory else m) -
              env.base_memory) * p / 100 < env.min_tree_space
      all_goals simp only [h3, if_true, if_false] at *
      all_goals first
        | rfl
        | simp at hfail
  · intro mm mfs mcs mcc mts hmm hmfs hmcs hmcc hmts
    subst hmm hmfs hmcs hmcc hmts
    unfold set_max_memory
    refine ⟨fun h1 => by simp only [h1, if_true], fun h1 h2 => ?_,
      fun h1 h2 h3 => ?_, fun h1 h2 h3 => ?_⟩
    · simp only [h1, if_false, h2, if_true]
    · simp only [h1, if_false, h2, if_true, h3]
    · simp only [h1, if_false, h2, h3, if_true]
      exact ⟨trivial, trivial⟩

/-- C9, witness: with base memory 100, minimum cache count 5, entry size 1,
minimum tree space 50 and identity overhead, a cap of 60 (below the base
memory) is refused with the network message and leaves the configuration
untouched, while a cap of 1100 with a 10% cache share succeeds. -/
theorem C9_set_max_memory_all_or_nothing_witness :
    (set_max_memory ⟨2048, 100, 1, 5, 50, fun s => s⟩ ⟨1, 2, 3, 4⟩
        60 10).2 = ⟨1, 2, 3, 4⟩ ∧
    (set_max_memory ⟨2048, 100, 1, 5, 50, fun s => s⟩ ⟨1, 2, 3, 4⟩
        60 10).1 = (false, "Not enough memory for network.") ∧
    (set_max_memory ⟨2048, 100, 1, 5, 50, fun s => s⟩ ⟨1, 2, 3, 4⟩
        1100 10).1.1 = true ∧
    (set_max_memory ⟨2048, 100, 1, 5, 50, fun s => s⟩ ⟨1, 2, 3, 4⟩
        1100 10).2 = ⟨1100, 10, 900, 100⟩ := by
  have henv := C9_set_max_memory_all_or_nothing
    ⟨2048, 100, 1, 5, 50, fun s => s⟩ ⟨1, 2, 3, 4⟩ 60 10
  have henv2 := C9_set_max_memory_all_or_nothing
    ⟨2048, 100, 1, 5, 50, fun s => s⟩ ⟨1, 2, 3, 4⟩ 1100 10
  have hmsg := (henv.2 60 0 0 0 0 rfl rfl rfl rfl rfl).1 (by decide)
  have hsucc := ((henv2.2 1100 1000 100 100 900 rfl rfl rfl rfl rfl).2.2.2
    (by decide) (by decide) (by decide))
  exact ⟨henv.1 (by rw [hmsg]), hmsg, hsucc.1, hsucc.2⟩

/-! ## Time management: pruning and early stop (claim C3)

`UCTSearch::est_playouts_left` (`src/unnamed/part_000` lines 796–811),
`UCTSearch::prune_noncontenders` (lines 813–841) and
`UCTSearch::have_alternate_moves` (lines 843–880). -/

/-- The values of `TimeManagement::enabled_t` compared against in src
(header absent from src; `AUTO` is the default set in GTP.cpp line 149). -/
inductive TimeManagement
  | AUTO
  | ON
  | OFF
  | FAST
  | NO_PRUNING
deriving DecidableEq, Repr

/-- The C++ `(int)` cast of a float: truncation toward zero, written out on
the rational's numerator and denominator (`Int./` rounds down and the
denominator is positive, so `num / den` is the floor). -/
def float_to_int (x : ℚ) : Int :=
  if x < 0 then -((-x).num / ((-x).den : Int)) else x.num / (x.den : Int)

/-- `std::ceil` on a rational: `⌈x⌉ = -⌊-x⌋`, written out on numerator and
denominator. -/
def float_ceil (x : ℚ) : Int := -((-x).num / ((-x).den : Int))

/-- A root child as read by the time-management code: its (float) visit
count, its validity (not invalidated by superko), and its active flag. -/
structure Child where
  visits : ℚ
  valid : Bool
  active : Bool
deriving DecidableEq, Repr

/-- `UCTSearch::est_playouts_left` (lines 796–811). -/
def est_playouts_left (playouts maxplayouts maxvisits : Int)
    (root_visits : ℚ) (elapsed_centis time_for_move : Int) : Int :=
  let playouts_left :=
    max 0 (min (maxplayouts - playouts) (maxvisits - float_to_int root_visits))
  if elapsed_centis < 100 ∨ playouts < 100 then playouts_left
  else
    let playout_rate : ℚ := (playouts : ℚ) / (elapsed_centis : ℚ)
    let time_left : Int := max 0 (time_for_move - elapsed_centis)
    min playouts_left (float_ceil (playout_rate * (time_left : ℚ)))

/-- `Nfirst` (lines 814–821): the largest (int-cast) visit count among the
valid root children. -/
def Nfirst_of (children : List Child) : Int :=
  children.foldl
    (fun a c => if c.valid = true then max a (float_to_int c.visits) else a) 0

/-- `min_required_visits` (lines 822–823): `Nfirst` minus the estimated
playouts left. -/
def min_required_visits (children : List Child)
    (playouts maxplayouts maxvisits : Int) (root_visits : ℚ)
    (elapsed_centis time_for_move : Int) : Int :=
  Nfirst_of children -
    est_playouts_left playouts maxplayouts maxvisits root_visits
      elapsed_centis time_for_move

/-- The update `node->set_active(has_enough_visits)` applied to a valid
child by the pruning pass (lines 825–837); invalid children are left
alone. -/
def prune_mark (minreq : Int) (c : Child) : Child :=
  if c.valid = true then
    { c with active := decide ((minreq : ℚ) ≤ c.visits) }
  else c

/-- `UCTSearch::prune_noncontenders` (lines 813–841): the single loop over
the root children is rendered as a count plus a map — it counts the valid
children whose (float) visit count is below `min_required_visits`, and,
when `prune` is set, applies `set_active(has_enough_visits)` to every valid
child.  Returns the count and the updated children. -/
def prune_noncontenders (children : List Child)
    (playouts maxplayouts maxvisits : Int) (root_visits : ℚ)
    (elapsed_centis time_for_move : Int) (do_prune : Bool) :
    Nat × List Child :=
  let minreq := min_required_visits children playouts maxplayouts maxvisits
    root_visits elapsed_centis time_for_move
  (children.countP
     (fun c => c.valid && !(decide ((minreq : ℚ) ≤ c.visits))),
   if do_prune = true then children.map (prune_mark minreq) else children)

/-- `UCTSearch::have_alternate_moves` (lines 843–880): `OFF` disables the
whole mechanism; otherwise non-contenders are counted (and, except under
`NO_PRUNING`, deactivated); if at least two contenders remain the search
keeps running; if not, the search still keeps running when time cannot be
accumulated or a playout limit is set, unless timemanage is `FAST`;
otherwise it stops early (returns `false`). -/
def have_alternate_moves (tm : TimeManagement) (children : List Child)
    (playouts maxplayouts maxvisits : Int) (root_visits : ℚ)
    (elapsed_centis time_for_move : Int) (can_accumulate : Bool) :
    Bool × List Child :=
  if tm = TimeManagement.OFF then (true, children)
  else
    let do_prune := decide (tm ≠ TimeManagement.NO_PRUNING)
    if children.length = 0 then (true, children)
    else
      let pc := prune_noncontenders children playouts maxplayouts maxvisits
        root_visits elapsed_centis time_for_move do_prune
      if pc.1 < children.length - 1 then (true, pc.2)
      else if (can_accumulate = false ∨ maxplayouts < UNLIMITED_PLAYOUTS) ∧
          tm ≠ TimeManagement.FAST then (true, pc.2)
      else (false, pc.2)

theorem prune_noncontenders_snd_noprune (children : List Child)
    (playouts maxplayouts maxvisits : Int) (root_visits : ℚ)
    (elapsed_centis time_for_move : Int) :
    (prune_noncontenders children playouts maxplayouts maxvisits root_visits
        elapsed_centis time_for_move false).2 = children := by
  unfold prune_noncontenders
  simp

theorem prune_noncontenders_snd_prune (children : List Child)
    (playouts maxplayouts maxvisits : Int) (root_visits : ℚ)
    (elapsed_centis time_for_move : Int) :
    (prune_noncontenders children playouts maxplayouts maxvisits root_visits
        elapsed_centis time_for_move true).2 =
      children.map (prune_mark (min_required_visits children playouts
        maxplayouts maxvisits root_visits elapsed_centis time_for_move)) := by
  unfold prune_noncontenders
  simp

/-- C3 (counterexample): with timemanage `NO_PRUNING`, two valid root
children with 1000 and 0 visits, 200 playouts in 200 centiseconds, 10
centiseconds of budget left, accumulatable time and no playout limit, the
trailing child cannot catch up (`min_required_visits` = 990), so all but
one child count as non-contenders — and `have_alternate_moves` returns
`false`: the search stops early although timemanage is `NO_PRUNING` (and
indeed no child was deactivated).  This refutes the claim that under
`NO_PRUNING` the search does not stop early on this criterion. -/
theorem C3_no_pruning_still_stops_counterexample :
    have_alternate_moves TimeManagement.NO_PRUNING
        [⟨1000, true, true⟩, ⟨0, true, true⟩] 200
        UNLIMITED_PLAYOUTS UNLIMITED_PLAYOUTS 1000 200 210 true =
      (false, [⟨1000, true, true⟩, ⟨0, true, true⟩]) := by
  have hest : est_playouts_left 200 UNLIMITED_PLAYOUTS UNLIMITED_PLAYOUTS
      1000 200 210 = 10 := by
    simp only [est_playouts_left]
    rw [if_neg (by omega)]
    rw [show (max 0 (210 - 200) : Int) = 10 from by decide]
    rw [show ((200 : Int) : ℚ) / ((200 : Int) : ℚ) * ((10 : Int) : ℚ) =
      (10 : ℚ) from by norm_num]
    rw [show float_ceil 10 = 10 from by decide]
    decide
  have hminreq : min_required_visits
      [⟨1000, true, true⟩, ⟨0, true, true⟩] 200 UNLIMITED_PLAYOUTS
      UNLIMITED_PLAYOUTS 1000 200 210 = 990 := by
    unfold min_required_visits
    rw [hest]
    decide
  have hpc : prune_noncontenders [⟨1000, true, true⟩, ⟨0, true, true⟩] 200
      UNLIMITED_PLAYOUTS UNLIMITED_PLAYOUTS 1000 200 210 false =
      (1, [⟨1000, true, true⟩, ⟨0, true, true⟩]) := by
    unfold prune_noncontenders
    rw [hminreq]
    decide
  unfold have_alternate_moves
  rw [show (decide (TimeManagement.NO_PRUNING ≠ TimeManagement.NO_PRUNING))
    = false from by decide]
  simp only [hpc]
  decide

/-- C3 (amended): during think, `have_alternate_moves` deactivates root
children whose visits cannot catch up within the remaining time
(`min_required_visits` = `Nfirst` minus the estimated playouts left) only
when timemanage is neither `OFF` nor `NO_PRUNING`; when all but one child
are below the threshold the search stops early iff timemanage is not `OFF`
and either (time can be accumulated and no playout limit is set) or
timemanage is `FAST` — in particular with timemanage `OFF` the search never
stops early on this criterion, while under `NO_PRUNING` no child is
deactivated but the early stop can still trigger. -/
theorem C3_have_alternate_moves_amended (tm : TimeManagement)
    (children : List Child) (playouts maxplayouts maxvisits : Int)
    (root_visits : ℚ) (elapsed_centis time_for_move : Int)
    (can_accumulate : Bool) :
    ((have_alternate_moves tm children playouts maxplayouts maxvisits
        root_visits elapsed_centis time_for_move can_accumulate).1 = false ↔
      (tm ≠ TimeManagement.OFF ∧ children.length ≠ 0 ∧
        children.length - 1 ≤
          (prune_noncontenders children playouts maxplayouts maxvisits
            root_visits elapsed_centis time_for_move
            (decide (tm ≠ TimeManagement.NO_PRUNING))).1 ∧
        ((can_accumulate = true ∧ UNLIMITED_PLAYOUTS ≤ maxplayouts) ∨
          tm = TimeManagement.FAST))) ∧
    ((tm = TimeManagement.OFF ∨ tm = TimeManagement.NO_PRUNING) →
      (have_alternate_moves tm children playouts maxplayouts maxvisits
        root_visits elapsed_centis time_for_move can_accumulate).2 =
        children) ∧
    (tm ≠ TimeManagement.OFF → tm ≠ TimeManagement.NO_PRUNING →
      children.length ≠ 0 →
      (have_alternate_moves tm children playouts maxplayouts maxvisits
          root_visits elapsed_centis time_for_move can_accumulate).2 =
        children.map (prune_mark (min_required_visits children playouts
          maxplayouts maxvisits root_visits elapsed_centis
          time_for_move))) := by
  refine ⟨?_, ?_, ?_⟩
  · simp only [have_alternate_moves]
    generalize prune_noncontenders children playouts maxplayouts maxvisits
      root_visits elapsed_centis time_for_move
      (decide (tm ≠ TimeManagement.NO_PRUNING)) = pc
    split_ifs with h1 h2 h3 h4
    · simp [h1]
    · simp [h1, h2]
    · constructor
      · intro h; exact absurd h (by simp)
      · rintro ⟨_, _, hle, _⟩
        exfalso
        omega
    · constructor
      · intro h; exact absurd h (by simp)
      · rintro ⟨_, _, _, hd⟩
        exfalso
        rcases h4 with ⟨hc, hf⟩
        rcases hd with ⟨hacc, hple⟩ | hfast
        · rcases hc with hc | hc
          · rw [hacc] at hc
            exact absurd hc (by simp)
          · omega
        · exact hf hfast
    · constructor
      · intro _
        refine ⟨h1, h2, by omega, ?_⟩
        by_cases hfast : tm = TimeManagement.FAST
        · exact Or.inr hfast
        · have hAB : ¬(can_accumulate = false ∨
              maxplayouts < UNLIMITED_PLAYOUTS) :=
            fun hab => h4 ⟨hab, hfast⟩
          refine Or.inl ⟨?_, ?_⟩
          · cases hca : can_accumulate with
            | false => exact absurd (Or.inl hca) hAB
            | true => rfl
          · by_cases hpl : maxplayouts < UNLIMITED_PLAYOUTS
            · exact absurd (Or.inr hpl) hAB
            · omega
      · intro _; rfl
  · intro h
    rcases h with h | h
    · subst h
      simp [have_alternate_moves]
    · subst h
      have hnp2 := prune_noncontenders_snd_noprune children playouts
        maxplayouts maxvisits root_visits elapsed_centis time_for_move
      have hdp : (decide (TimeManagement.NO_PRUNING ≠
          TimeManagement.NO_PRUNING)) = false := by decide
      simp only [have_alternate_moves, hdp, hnp2]
      split_ifs <;> rfl
  · intro hoff hnp hlen
    have hdp : decide (tm ≠ TimeManagement.NO_PRUNING) = true := by
      simp [hnp]
    have hp2 := prune_noncontenders_snd_prune children playouts maxplayouts
      maxvisits root_visits elapsed_centis time_for_move
    simp only [have_alternate_moves, hdp, hp2, if_neg hoff, if_neg hlen]
    split_ifs <;> rfl

/-- C3 amended, witness: with timemanage `OFF` the function neither stops
the search nor touches the children. -/
theorem C3_have_alternate_moves_amended_witness :
    (have_alternate_moves TimeManagement.OFF [⟨7, true, true⟩] 0 0 0 0 0 0
        true).2 = [⟨7, true, true⟩] := by
  exact (C3_have_alternate_moves_amended TimeManagement.OFF
    [⟨7, true, true⟩] 0 0 0 0 0 0 true).2.1 (Or.inl rfl)

/-! ## Best-move selection: pass heuristics and resign (claims C4, C7)

`UCTSearch::should_resign` (`src/unnamed/part_000` lines 573–621),
`UCTSearch::get_best_move` (lines 623–746) and the tail of
`UCTSearch::think` (lines 961–1008). -/

/-- What `get_best_move` reads off a root child: its move, whether it was
never visited (`first_visit()`), and its winrate for the root colour
(`get_raw_eval(color)`).  The sorted first child and the result of
`get_nopass_child` (UCTNode methods absent from src; per the spec the best
non-PASS child, if any) enter the embedded function as inputs of this
shape. -/
structure ChildEval where
  move : Int
  first_visit : Bool
  raw_eval : ℚ
deriving DecidableEq, Repr

/-- The resign threshold (lines 595–597):
`0.01f * (is_default_cfg_resign ? 10 : cfg_resignpct)`. -/
def resign_threshold_of (cfg_resignpct : Int) : ℚ :=
  (1/100) * (if cfg_resignpct < 0 then (10 : ℚ) else (cfg_resignpct : ℚ))

/-- The blended threshold for White in handicap games (lines 606–612):
`blend_ratio * resign_threshold + (1 - blend_ratio) * resign_threshold /
(1 + handicap)` with `blend_ratio = min(1, movenum / (0.6 *
num_intersections))`. -/
def blended_resign_threshold_of (cfg_resignpct : Int)
    (boardsize movenum handicap : Nat) : ℚ :=
  let rt := resign_threshold_of cfg_resignpct
  let blend_frac : ℚ :=
    min 1 ((movenum : ℚ) / ((6/10) * ((boardsize * boardsize : Nat) : ℚ)))
  blend_frac * rt + (1 - blend_frac) * (rt / (1 + (handicap : ℚ)))

/-- `UCTSearch::should_resign` (lines 573–621). -/
def should_resign (noresign : Bool) (cfg_resignpct : Int)
    (boardsize movenum handicap color : Nat) (besteval : ℚ) : Bool :=
  if noresign = true then false
  else if cfg_resignpct = 0 then false
  else
    let num_intersections := boardsize * boardsize
    let move_threshold := num_intersections / 4
    if movenum ≤ move_threshold then false
    else
      let resign_threshold := resign_threshold_of cfg_resignpct
      if resign_threshold < besteval then false
      else
        if 0 < handicap ∧ color = WHITE ∧ cfg_resignpct < 0 then
          let blended_resign_threshold :=
            blended_resign_threshold_of cfg_resignpct boardsize movenum
              handicap
          if blended_resign_threshold < besteval then false
          else true
        else true

/-- The pass-handling stage of `UCTSearch::get_best_move` (lines 623–734):
starting from the sorted (and possibly randomised) first child, apply the
`NOPASS` override, or — when `cfg_dumbpass` is off — the final-score
heuristics for a best move that is PASS and for an opponent who just
passed.  Returns the chosen move together with its eval. -/
def get_best_move_pass_stage (nopass cfg_dumbpass : Bool) (color : Nat)
    (final_score : ℚ) (last_move : Int) (first_child : ChildEval)
    (nopass_child : Option ChildEval) : Int × ℚ :=
  let bestmove := first_child.move
  let besteval := if first_child.first_visit = true then (1/2 : ℚ)
    else first_child.raw_eval
  if nopass = true then
    if bestmove = PASS then
      match nopass_child with
      | some np =>
          (np.move, if np.first_visit = true then 1 else np.raw_eval)
      | none => (bestmove, besteval)
    else (bestmove, besteval)
  else if cfg_dumbpass = false then
    let relative_score :=
      (if color = BLACK then (1 : ℚ) else -1) * final_score
    if bestmove = PASS then
      if relative_score < 0 then
        match nopass_child with
        | some np =>
            (np.move, if np.first_visit = true then 1 else np.raw_eval)
        | none => (bestmove, besteval)
      else if 0 < relative_score then (bestmove, besteval)
      else
        match nopass_child with
        | some np =>
            if np.first_visit = false ∧ (1/2 : ℚ) < np.raw_eval then
              (np.move, np.raw_eval)
            else (bestmove, besteval)
        | none => (bestmove, besteval)
    else if last_move = PASS then
      if relative_score < 0 then (bestmove, besteval)
      else if 0 < relative_score then (PASS, besteval)
      else if besteval < 1/2 then (PASS, besteval)
      else (bestmove, besteval)
    else (bestmove, besteval)
  else (bestmove, besteval)

/-- `UCTSearch::get_best_move` (lines 623–746): the pass stage followed by
the resign check (lines 736–743) — if the chosen move is not PASS and
`should_resign` holds for its eval, RESIGN is returned instead. -/
def get_best_move (nopass noresign cfg_dumbpass : Bool)
    (cfg_resignpct : Int) (boardsize movenum handicap color : Nat)
    (final_score : ℚ) (last_move : Int) (first_child : ChildEval)
    (nopass_child : Option ChildEval) : Int :=
  let bm := get_best_move_pass_stage nopass cfg_dumbpass color final_score
    last_move first_child nopass_child
  if bm.1 ≠ PASS ∧
      should_resign noresign cfg_resignpct boardsize movenum handicap color
        bm.2 = true then
    RESIGN
  else bm.1

/-- The move returned by `UCTSearch::think` (lines 912–1009): PASS when the
root has no children (lines 969–971), otherwise `get_best_move(passflag)`
(line 1004). -/
def think_best_move (has_children nopass noresign cfg_dumbpass : Bool)
    (cfg_resignpct : Int) (boardsize movenum handicap color : Nat)
    (final_score : ℚ) (last_move : Int) (first_child : ChildEval)
    (nopass_child : Option ChildEval) : Int :=
  if has_children = false then PASS
  else get_best_move nopass noresign cfg_dumbpass cfg_resignpct boardsize
    movenum handicap color final_score last_move first_child nopass_child

/-- C4 (counterexample): no `NOPASS` flag, dumbpass heuristics enabled
(`cfg_dumbpass` off), the most-visited move is PASS, the final score is 0
(passing draws — it is not confirmed to win), and a visited non-PASS child
with eval 2/5 exists; `get_best_move` still returns PASS instead of
substituting the best non-PASS child.  This refutes the claim that when the
most-visited move is PASS it is either confirmed to win by the final score
or replaced by the best non-PASS child. -/
theorem C4_draw_keeps_pass_counterexample :
    get_best_move false false false (-1) 19 250 0 BLACK 0 PASS
        ⟨PASS, false, 3/5⟩ (some ⟨42, false, 2/5⟩) = PASS ∧
    ¬(0 < (if BLACK = BLACK then (1 : ℚ) else -1) * 0) := by
  constructor
  · norm_num [get_best_move, get_best_move_pass_stage, PASS, RESIGN, BLACK]
  · norm_num

/-- C4 (amended): in get_best_move with no `NOPASS` flag and dumbpass
heuristics enabled, with `rel` the root colour's sign times the final
score: if the most-visited move is PASS, then when passing loses
(`rel < 0`) the best non-PASS child is substituted if one exists and PASS
is kept otherwise; when passing wins (`rel > 0`) PASS is kept; when
passing draws (`rel = 0`) a visited non-PASS child is substituted only if
its eval exceeds 1/2, else PASS is kept.  If the most-visited move is not
PASS but the opponent's last move was PASS, PASS is substituted when
passing wins — in particular, in a position where passing wins after an
opponent pass, think without `NOPASS` returns PASS — and also when passing
draws and the best eval is below 1/2. -/
theorem C4_pass_heuristics_amended (noresign : Bool) (cfg_resignpct : Int)
    (boardsize movenum handicap color : Nat) (final_score : ℚ)
    (last_move : Int) (first_child np : ChildEval)
    (nopass_child : Option ChildEval) (rel : ℚ)
    (hrel : rel = (if color = BLACK then (1 : ℚ) else -1) * final_score) :
    (first_child.move = PASS →
      (rel < 0 → nopass_child = some np →
        get_best_move_pass_stage false false color final_score last_move
            first_child nopass_child =
          (np.move, if np.first_visit = true then 1 else np.raw_eval)) ∧
      (rel < 0 → nopass_child = none →
        (get_best_move_pass_stage false false color final_score last_move
          first_child nopass_child).1 = PASS) ∧
      (0 < rel →
        (get_best_move_pass_stage false false color final_score last_move
          first_child nopass_child).1 = PASS) ∧
      (rel = 0 → nopass_child = some np →
        (np.first_visit = false ∧ (1/2 : ℚ) < np.raw_eval →
          get_best_move_pass_stage false false color final_score last_move
              first_child nopass_child = (np.move, np.raw_eval)) ∧
        (¬(np.first_visit = false ∧ (1/2 : ℚ) < np.raw_eval) →
          (get_best_move_pass_stage false false color final_score last_move
            first_child nopass_child).1 = PASS))) ∧
    (first_child.move ≠ PASS → last_move = PASS →
      (0 < rel →
        get_best_move false noresign false cfg_resignpct boardsize movenum
            handicap color final_score last_move first_child nopass_child =
          PASS) ∧
      (rel = 0 →
        (if first_child.first_visit = true then (1/2 : ℚ)
          else first_child.raw_eval) < 1/2 →
        (get_best_move_pass_stage false false color final_score last_move
          first_child nopass_child).1 = PASS)) := by
  constructor
  · intro hbp
    refine ⟨fun hlt hsome => ?_, fun hlt hnone => ?_, fun hgt => ?_,
      fun heq hsome => ⟨fun hgood => ?_, fun hbad => ?_⟩⟩
    · subst hsome
      simp [get_best_move_pass_stage, ← hrel, hbp, hlt]
    · subst hnone
      simp [get_best_move_pass_stage, ← hrel, hbp, hlt]
    · simp [get_best_move_pass_stage, ← hrel, hbp, hgt, asymm hgt]
    · subst hsome
      simp [get_best_move_pass_stage, ← hrel, hbp, heq, hgood]
      intro h
      exfalso
      have h2 := hgood.2
      linarith
    · subst hsome
      simp [get_best_move_pass_stage, ← hrel, hbp, heq]
      have hbad2 : ¬(np.first_visit = false ∧ (2⁻¹ : ℚ) < np.raw_eval) := by
        rw [show (2⁻¹ : ℚ) = 1/2 from by norm_num]
        exact hbad
      rw [if_neg hbad2]
  · intro hbnp hlast
    constructor
    · intro hgt
      have hs : (get_best_move_pass_stage false false color final_score
          last_move first_child nopass_child).1 = PASS := by
        simp [get_best_move_pass_stage, ← hrel, hbnp, hlast, hgt, asymm hgt]
      unfold get_best_move
      rw [if_neg (by simp [hs])]
      exact hs
    · intro heq hlt
      simp [get_best_move_pass_stage, ← hrel, hbnp, hlast, heq]
      have hlt2 : (if first_child.first_visit = true then (2⁻¹ : ℚ)
          else first_child.raw_eval) < 2⁻¹ := by
        rw [show (2⁻¹ : ℚ) = 1/2 from by norm_num]
        exact hlt
      rw [if_pos hlt2]

/-- C4 amended, witness (the end-to-end scenario of the claim): passing
wins by +10 for Black, the opponent just passed, the most-visited move is
the board move 42 — `get_best_move` without `NOPASS` returns PASS. -/
theorem C4_pass_heuristics_amended_witness :
    get_best_move false false false (-1) 19 100 0 BLACK 10 PASS
        ⟨42, false, 11/20⟩ none = PASS := by
  exact ((C4_pass_heuristics_amended false (-1) 19 100 0 BLACK 10 PASS
    ⟨42, false, 11/20⟩ ⟨42, false, 11/20⟩ none 10
    (by norm_num [BLACK])).2 (by decide) rfl).1 (by norm_num)

/-- C7: think returns RESIGN exactly when the root has children, the chosen
best move (after the pass stage) is not PASS, and `should_resign` holds for
its eval; and `should_resign` holds exactly when resigning is permitted (no
`NORESIGN` flag, resign percentage not zero), the move number exceeds
`board_area / 4`, the eval is at or below the resign threshold
(`0.01 * resignpct`, or `0.10` by default when `resignpct < 0`), and — in
handicap games with the default threshold and White to move — the eval is
also at or below the relaxed threshold blending
`resign_threshold / (1 + handicap)` linearly toward the standard threshold
over the first `0.6 * board_area` moves. -/
theorem C7_think_resign_iff (has_children nopass noresign
      cfg_dumbpass : Bool) (cfg_resignpct : Int)
    (boardsize movenum handicap color : Nat) (final_score : ℚ)
    (last_move : Int) (first_child : ChildEval)
    (nopass_child : Option ChildEval)
    (hbm : (get_best_move_pass_stage nopass cfg_dumbpass color final_score
      last_move first_child nopass_child).1 ≠ RESIGN) :
    (think_best_move has_children nopass noresign cfg_dumbpass
        cfg_resignpct boardsize movenum handicap color final_score
        last_move first_child nopass_child = RESIGN ↔
      (has_children = true ∧
        (get_best_move_pass_stage nopass cfg_dumbpass color final_score
          last_move first_child nopass_child).1 ≠ PASS ∧
        should_resign noresign cfg_resignpct boardsize movenum handicap
          color
          (get_best_move_pass_stage nopass cfg_dumbpass color final_score
            last_move first_child nopass_child).2 = true)) ∧
    (∀ ev : ℚ,
      should_resign noresign cfg_resignpct boardsize movenum handicap color
          ev = true ↔
        (noresign = false ∧ cfg_resignpct ≠ 0 ∧
          boardsize * boardsize / 4 < movenum ∧
          ev ≤ resign_threshold_of cfg_resignpct ∧
          (0 < handicap ∧ color = WHITE ∧ cfg_resignpct < 0 →
            ev ≤ blended_resign_threshold_of cfg_resignpct boardsize
              movenum handicap))) := by
  constructor
  · unfold think_best_move get_best_move
    cases has_children with
    | false =>
        rw [if_pos (show (false : Bool) = false from rfl)]
        constructor
        · intro h; exact absurd h (by decide)
        · rintro ⟨h, -⟩; exact absurd h (by decide)
    | true =>
        rw [if_neg (show ¬((true : Bool) = false) from by decide)]
        by_cases hcond : (get_best_move_pass_stage nopass cfg_dumbpass color
            final_score last_move first_child nopass_child).1 ≠ PASS ∧
            should_resign noresign cfg_resignpct boardsize movenum handicap
              color
              (get_best_move_pass_stage nopass cfg_dumbpass color
                final_score last_move first_child nopass_child).2 = true
        · rw [if_pos hcond]
          constructor
          · intro _; exact ⟨rfl, hcond.1, hcond.2⟩
          · intro _; rfl
        · rw [if_neg hcond]
          constructor
          · intro h; exact absurd h hbm
          · rintro ⟨-, h1, h2⟩; exact absurd ⟨h1, h2⟩ hcond
  · intro ev
    unfold should_resign
    by_cases h1 : noresign = true
    · rw [if_pos h1]
      simp [h1]
    · rw [if_neg h1]
      by_cases h2 : cfg_resignpct = 0
      · rw [if_pos h2]
        simp [h2]
      · rw [if_neg h2]
        by_cases h3 : movenum ≤ boardsize * boardsize / 4
        · rw [if_pos h3]
          constructor
          · intro h; exact absurd h (by decide)
          · rintro ⟨-, -, h, -⟩; omega
        · rw [if_neg h3]
          by_cases h4 : resign_threshold_of cfg_resignpct < ev
          · rw [if_pos h4]
            constructor
            · intro h; exact absurd h (by decide)
            · rintro ⟨-, -, -, h, -⟩; linarith
          · rw [if_neg h4]
            by_cases h5 : 0 < handicap ∧ color = WHITE ∧ cfg_resignpct < 0
            · rw [if_pos h5]
              by_cases h6 : blended_resign_threshold_of cfg_resignpct
                  boardsize movenum handicap < ev
              · rw [if_pos h6]
                constructor
                · intro h; exact absurd h (by decide)
                · rintro ⟨-, -, -, -, h⟩
                  exact absurd (h h5) (by linarith)
              · rw [if_neg h6]
                refine ⟨fun _ => ?_, fun _ => rfl⟩
                exact ⟨by revert h1; cases noresign <;> simp, h2, by omega,
                  by linarith, fun _ => by linarith⟩
            · rw [if_neg h5]
              refine ⟨fun _ => ?_, fun _ => rfl⟩
              exact ⟨by revert h1; cases noresign <;> simp, h2, by omega,
                by linarith, fun hh => absurd hh h5⟩

/-- C7, witness: resign percentage at the default, Black to move at move
100 on a 19×19 board (past 90 = 361/4), chosen best move 42 with eval 1/20
below the default threshold 1/10 — think returns RESIGN. -/
theorem C7_think_resign_iff_witness :
    think_best_move true false false true (-1) 19 100 0 BLACK 0 0
      ⟨42, false, 1/20⟩ none = RESIGN := by
  have h := C7_think_resign_iff true false false true (-1) 19 100 0 BLACK
    0 0 ⟨42, false, 1/20⟩ none
    (by norm_num [get_best_move_pass_stage, RESIGN])
  refine h.1.mpr ⟨rfl, ?_, ?_⟩
  · norm_num [get_best_move_pass_stage, PASS]
  · refine (h.2 _).mpr ?_
    refine ⟨rfl, by norm_num, by norm_num, ?_, ?_⟩
    · norm_num [get_best_move_pass_stage, resign_threshold_of]
    · intro hh
      exact absurd hh (by simp)

/-! ## Root advance and tree discard (claim C5)

`UCTSearch::advance_to_new_rootstate` (`src/unnamed/part_000` lines
103–171) and the root-replacement step of `UCTSearch::update_root` (lines
198–215). -/

/-- The game state as read by `advance_to_new_rootstate`: the komi, the
moves played so far (most recent first) and the undone moves available to
`forward_move` (nearest first).  The board adapter is an external
collaborator (spec §1), so the board position — and hence the board hash —
is identified with the sequence of moves that produced it. -/
structure GState where
  komi : ℚ
  played : List Int
  future : List Int
deriving DecidableEq, Repr

/-- `get_movenum`. -/
def GState.get_movenum (s : GState) : Nat := s.played.length

/-- `undo_move`: take back the most recent move. -/
def GState.undo_move (s : GState) : GState :=
  match s.played with
  | [] => s
  | m :: rest => { s with played := rest, future := m :: s.future }

/-- `forward_move`: replay the next undone move. -/
def GState.forward_move (s : GState) : GState :=
  match s.future with
  | [] => s
  | m :: rest => { s with played := m :: s.played, future := rest }

/-- `get_last_move`. -/
def GState.get_last_move (s : GState) : Int := s.played.headD PASS

/-- `play_move`, used to replay `m_last_rootstate` forward (line 160). -/
def GState.play_move (s : GState) (m : Int) : GState :=
  { s with played := m :: s.played }

/-- `board.get_hash()`: with the board abstracted, the position is its
played move sequence. -/
def GState.hash (s : GState) : List Int := s.played

/-- `depth` applications of `undo_move` (lines 122–125). -/
def GState.undo_n (s : GState) : Nat → GState
  | 0 => s
  | k + 1 => s.undo_move.undo_n k

/-- A search-tree node as seen by the root-advance code: the move that
enters it and its children. -/
inductive UCTNode where
  | mk (move : Int) (children : List UCTNode)

/-- The move of a node. -/
def UCTNode.move : UCTNode → Int
  | .mk mv _ => mv

/-- The children of a node. -/
def UCTNode.children : UCTNode → List UCTNode
  | .mk _ cs => cs

mutual

/-- The number of nodes of a subtree. -/
def UCTNode.count : UCTNode → Nat
  | .mk _ cs => 1 + countList cs

/-- The number of nodes of a list of subtrees. -/
def countList : List UCTNode → Nat
  | [] => 0
  | c :: cs => c.count + countList cs

end

/-- Extract the first child carrying the given move, returning it and the
remaining children. -/
def detach_first : List UCTNode → Int → Option UCTNode × List UCTNode
  | [], _ => (none, [])
  | c :: cs, m =>
      if c.move = m then (some c, cs)
      else
        let r := detach_first cs m
        (r.1, c :: r.2)

/-- `UCTNode::find_child(move)`, modelled from the spec (UCTNode source
absent from src): ownership of the matching child moves out of the node
(it becomes the new root, line 147), and the old root — now without that
child — is emplaced into `to_delete` (line 153).  Returns the extracted
child and the stripped old node. -/
def UCTNode.find_child (n : UCTNode) (m : Int) : Option UCTNode × UCTNode :=
  let r := detach_first n.children m
  (r.1, .mk n.move r.2)

/-- The node count of an optional root. -/
def optcount : Option UCTNode → Nat
  | some r => r.count
  | none => 0

/-- The state of the replay loop of `advance_to_new_rootstate` when it
finishes or fails. -/
structure AdvanceLoopResult where
  ok : Bool
  root : Option UCTNode
  to_delete : List UCTNode
  last : GState
  test : GState

/-- The replay loop (lines 142–161): `depth` times, forward the test
state, read the replayed move, detach the matching child as the new root
and emplace the stripped old root into `to_delete`; fail if the tree has
not been expanded this far.  `m_last_rootstate` is replayed alongside
(line 160). -/
def advance_loop : Nat → UCTNode → GState → GState → List UCTNode →
    AdvanceLoopResult
  | 0, root, last, test, dels =>
      { ok := true, root := some root, to_delete := dels, last := last,
        test := test }
  | k + 1, root, last, test, dels =>
      let test2 := test.forward_move
      let move := test2.get_last_move
      let r := root.find_child move
      let dels2 := dels ++ [r.2]
      match r.1 with
      | none =>
          { ok := false, root := none, to_delete := dels2, last := last,
            test := test2 }
      | some nr => advance_loop k nr (last.play_move move) test2 dels2

/-- `UCTSearch::advance_to_new_rootstate` (lines 103–171): no current
root or no last root state, a komi change, a backwards move number, a hash
mismatch of the replayed base position, a played move with no child in the
tree, or a final hash mismatch all fail; otherwise the root is advanced
along the played moves.  Returns (matched, root left over, detached
nodes). -/
def advance_to_new_rootstate (root : Option UCTNode) (last : Option GState)
    (cur : GState) : Bool × Option UCTNode × List UCTNode :=
  match root, last with
  | none, _ => (false, none, [])
  | some r, none => (false, some r, [])
  | some r, some l =>
      if cur.komi ≠ l.komi then (false, some r, [])
      else
        let depth : Int := (cur.get_movenum : Int) - (l.get_movenum : Int)
        if depth < 0 then (false, some r, [])
        else
          let test := cur.undo_n depth.toNat
          if l.hash ≠ test.hash then (false, some r, [])
          else
            let res := advance_loop depth.toNat r l test []
            if res.ok = false then (false, res.root, res.to_delete)
            else if res.last.hash ≠ res.test.hash then
              (false, res.root, res.to_delete)
            else (true, res.root, res.to_delete)

/-- The root-replacement step of `UCTSearch::update_root` (lines 209–215):
if the advance did not match (or left no root), the remaining old root
joins `to_delete` and a fresh PASS root with no children is allocated;
the whole step always returns a root — a mismatch is not an error. -/
def update_root_tree (root : Option UCTNode) (last : Option GState)
    (cur : GState) : UCTNode × List UCTNode :=
  let res := advance_to_new_rootstate root last cur
  if res.1 = false ∨ res.2.1.isNone then
    match res.2.1 with
    | some r => (UCTNode.mk PASS [], res.2.2 ++ [r])
    | none => (UCTNode.mk PASS [], res.2.2)
  else
    match res.2.1 with
    | some r => (r, res.2.2)
    | none => (UCTNode.mk PASS [], res.2.2)

theorem countList_append (l1 l2 : List UCTNode) :
    countList (l1 ++ l2) = countList l1 + countList l2 := by
  induction l1 with
  | nil => simp [countList]
  | cons c cs ih =>
      rw [List.cons_append, countList, countList, ih]
      omega

theorem detach_first_count (cs : List UCTNode) (m : Int) :
    optcount (detach_first cs m).1 + countList (detach_first cs m).2 =
      countList cs := by
  induction cs with
  | nil => simp [detach_first, optcount, countList]
  | cons c cs ih =>
      by_cases h : c.move = m
      · simp only [detach_first, h, if_pos, optcount, countList]
      · simp only [detach_first, if_neg h]
        rw [countList, countList]
        cases hd : (detach_first cs m).1 with
        | none =>
            rw [hd] at ih
            simp only [optcount] at ih ⊢
            omega
        | some r =>
            rw [hd] at ih
            simp only [optcount] at ih ⊢
            omega

theorem find_child_count (n : UCTNode) (m : Int) :
    optcount (n.find_child m).1 + (n.find_child m).2.count = n.count := by
  cases n with
  | mk mv cs =>
      unfold UCTNode.find_child
      have h := detach_first_count cs m
      simp only [UCTNode.children, UCTNode.move, UCTNode.count]
      omega

theorem advance_loop_count (k : Nat) (root : UCTNode) (last test : GState)
    (dels : List UCTNode) :
    countList (advance_loop k root last test dels).to_delete +
      optcount (advance_loop k root last test dels).root =
      countList dels + root.count := by
  induction k generalizing root last test dels with
  | zero => simp [advance_loop, optcount]
  | succ k ih =>
      rw [advance_loop]
      have hfc := find_child_count root
        (test.forward_move.get_last_move)
      cases hr : (root.find_child (test.forward_move.get_last_move)).1 with
      | none =>
          simp only [hr]
          rw [hr] at hfc
          simp only [optcount] at hfc ⊢
          rw [countList_append, countList, countList]
          omega
      | some nr =>
          simp only [hr]
          rw [hr] at hfc
          simp only [optcount] at hfc
          rw [ih]
          rw [countList_append, countList, countList]
          omega

theorem advance_count (root : UCTNode) (last : Option GState)
    (cur : GState) :
    countList (advance_to_new_rootstate (some root) last cur).2.2 +
      optcount (advance_to_new_rootstate (some root) last cur).2.1 =
      root.count := by
  cases last with
  | none => simp [advance_to_new_rootstate, countList, optcount]
  | some l =>
      simp only [advance_to_new_rootstate]
      split_ifs with h1 h2 h3 h4 h5
      · simp [countList, optcount]
      · simp [countList, optcount]
      · simp [countList, optcount]
      all_goals
        have hl := advance_loop_count
          ((cur.get_movenum : Int) - (l.get_movenum : Int)).toNat root l
          (cur.undo_n
            ((cur.get_movenum : Int) - (l.get_movenum : Int)).toNat) []
      all_goals
        simp only [countList] at hl
      all_goals
        simpa using hl

/-- C5: whenever `advance_to_new_rootstate` fails to match — the komi
changed between last and current root state (line 110), the move number
went backwards (line 117), the replayed base position's hash differs
(line 127), the played move has no corresponding child (line 155), or the
final hash differs (line 165) — `update_root` replaces the root by a
freshly allocated PASS node with no children, and the detached nodes
handed to background deletion carry the entire old tree (their node count
equals the old tree's node count, and the new root shares no node with
it); the replacement itself is a total step that returns normally, not an
error.  The last three conjuncts witness the komi, backwards-motion and
base-hash failure conditions. -/
theorem C5_mismatch_discards_whole_tree (root : UCTNode) (l : GState)
    (cur : GState)
    (hfail :
      (advance_to_new_rootstate (some root) (some l) cur).1 = false) :
    ((update_root_tree (some root) (some l) cur).1 = UCTNode.mk PASS [] ∧
      countList (update_root_tree (some root) (some l) cur).2 =
        root.count) ∧
    (cur.komi ≠ l.komi →
      (advance_to_new_rootstate (some root) (some l) cur).1 = false) ∧
    ((cur.get_movenum : Int) - (l.get_movenum : Int) < 0 →
      (advance_to_new_rootstate (some root) (some l) cur).1 = false) ∧
    (¬ (cur.get_movenum : Int) - (l.get_movenum : Int) < 0 →
      l.hash ≠ (cur.undo_n ((cur.get_movenum : Int) -
          (l.get_movenum : Int)).toNat).hash →
      (advance_to_new_rootstate (some root) (some l) cur).1 = false) := by
  refine ⟨?_, ?_, ?_, ?_⟩
  · have hcount := advance_count root (some l) cur
    unfold update_root_tree
    rw [if_pos (Or.inl hfail)]
    cases hres : (advance_to_new_rootstate (some root) (some l) cur).2.1
      with
    | none =>
        rw [hres] at hcount
        simp only [optcount] at hcount
        constructor
        · simp [hres]
        · simp only [hres]
          omega
    | some r =>
        rw [hres] at hcount
        simp only [optcount] at hcount
        constructor
        · simp [hres]
        · simp only [hres, countList_append, countList]
          omega
  · intro h
    simp [advance_to_new_rootstate, h]
  · intro h
    by_cases hk : cur.komi ≠ l.komi
    · simp [advance_to_new_rootstate, hk]
    · simp [advance_to_new_rootstate, hk, h]
  · intro hd hh
    by_cases hk : cur.komi ≠ l.komi
    · simp [advance_to_new_rootstate, hk]
    · have hh2 : l.hash ≠
          (cur.undo_n (cur.get_movenum - l.get_movenum)).hash := by
        have ht : ((cur.get_movenum : Int) -
            (l.get_movenum : Int)).toNat =
            cur.get_movenum - l.get_movenum := by omega
        rw [ht] at hh
        exact hh
      simp [advance_to_new_rootstate, hk, hd, hh2]

/-- C5, witness: a komi change (7 → 8) with a two-node tree: update_root
discards both nodes to the background-deletion list and installs a fresh
PASS root. -/
theorem C5_mismatch_discards_whole_tree_witness :
    (update_root_tree (some (UCTNode.mk 5 [UCTNode.mk 3 []]))
        (some ⟨7, [], []⟩) ⟨8, [], []⟩).1 = UCTNode.mk PASS [] ∧
    countList (update_root_tree (some (UCTNode.mk 5 [UCTNode.mk 3 []]))
        (some ⟨7, [], []⟩) ⟨8, [], []⟩).2 = 2 := by
  have h := (C5_mismatch_discards_whole_tree
    (UCTNode.mk 5 [UCTNode.mk 3 []]) ⟨7, [], []⟩ ⟨8, [], []⟩
    (by decide)).1
  refine ⟨h.1, ?_⟩
  rw [h.2]
  decide

end LZ
